import Mathlib

/-!
Verification of the blood-test analyser's document-intake and
biomarker-extraction pipeline (`src/tools.py`).

Texts are modelled as `List Char`.  Python numbers are modelled exactly:
the numeric strings matched by the tools denote short exact decimals, so the
IEEE doubles produced by `float()` hold them exactly, compare like the exact
rationals, and `repr` prints their exact decimal expansion; we therefore
model a parsed float as an exact decimal `Dec` (a natural mantissa and a
power-of-ten scale) and state value-level properties through its rational
value `Dec.toRat`.  The regular expression `marker[:\s]*([\d\.]+)` used with
`re.IGNORECASE` is modelled on its ASCII fragment (the claims only exercise
ASCII text): `\d` as an ASCII digit, `\s` as the six ASCII whitespace
characters, case folding as ASCII lower-casing.
-/

namespace BloodTest

/-- Shorthand: the character list of a string literal. -/
def lc (s : String) : List Char := s.toList

/-- ASCII lower-casing, as performed by `str.lower()` and by `re.IGNORECASE`
on ASCII letters. -/
def pyLower (c : Char) : Char :=
  if 'A' ≤ c ∧ c ≤ 'Z' then Char.ofNat (c.toNat + 32) else c

/-- The ASCII fragment of the regex class `\s`:
space, tab, newline, carriage return, vertical tab, form feed. -/
def isPySpace (c : Char) : Bool :=
  c = ' ' || c = '\t' || c = '\n' || c = Char.ofNat 13 || c = Char.ofNat 11 ||
    c = Char.ofNat 12

/-- The regex class `[:\s]` separating a marker name from its number. -/
def isSep (c : Char) : Bool := c = ':' || isPySpace c

/-- The regex class `[\d\.]` (ASCII): a digit or a dot. -/
def isDigitDot (c : Char) : Bool := c.isDigit || c = '.'

/-- Case-insensitive "starts with": `t` begins with pattern `p` up to
`pyLower`. -/
def startsWithCI : List Char → List Char → Bool
  | _, [] => true
  | [], _ :: _ => false
  | c :: cs, p :: ps => pyLower c == pyLower p && startsWithCI cs ps

/-- One anchored attempt of the pattern `marker[:\s]*([\d\.]+)` under
`re.IGNORECASE` at the start of `t`: the marker name case-insensitively,
then a (greedy, possibly empty) run of colons and whitespace, then a
greedy nonempty run of digits and dots — the captured group, which is
returned.  The two runs use disjoint character classes, so greedy
left-to-right scanning needs no backtracking. -/
def matchNumAt (marker t : List Char) : Option (List Char) :=
  if startsWithCI t marker then
    let num := ((t.drop marker.length).dropWhile isSep).takeWhile isDigitDot
    if num.isEmpty then none else some num
  else none

/-- `re.search(marker + "[:\s]*([\d\.]+)", text, re.IGNORECASE)`:
the captured group of the leftmost match, or `none`. -/
def searchMarker (marker : List Char) : List Char → Option (List Char)
  | [] => matchNumAt marker []
  | c :: rest =>
    match matchNumAt marker (c :: rest) with
    | some g => some g
    | none => searchMarker marker rest

/-- Numeric value of a digit character. -/
def digitVal (c : Char) : Nat := c.toNat - 48

/-- The natural number denoted by a list of digit characters
(empty list denotes 0). -/
def digitsToNat (l : List Char) : Nat := l.foldl (fun a c => a * 10 + digitVal c) 0

/-- An exact decimal number, value `mant / 10 ^ scale`: the model of a Python
float produced by `float()` on a matched numeric group. -/
structure Dec where
  mant : Nat
  scale : Nat
deriving DecidableEq

/-- The rational value of an exact decimal. -/
def Dec.toRat (d : Dec) : Rat := (d.mant : Rat) / 10 ^ d.scale

/-- Python's `<` on two such floats, computed by cross-multiplication. -/
def Dec.blt (a b : Dec) : Bool := a.mant * 10 ^ b.scale < b.mant * 10 ^ a.scale

/-- Python's `float()` restricted to strings drawn from the regex class
`[\d\.]+` (only digits and dots), which is the only way it is called in
`tools.py`: it succeeds iff the string has at most one dot and at least one
digit, and raises `ValueError` (here: `none`) otherwise — e.g. on `"1.2.3"`
or `"."`.  The result is the exact decimal denoted by the string. -/
def pyFloat (l : List Char) : Option Dec :=
  if l.all isDigitDot ∧ l.count '.' ≤ 1 ∧ l.any (·.isDigit) then
    let intPart := l.takeWhile (· ≠ '.')
    let fracPart := (l.dropWhile (· ≠ '.')).drop 1
    some ⟨digitsToNat (intPart ++ fracPart), fracPart.length⟩
  else none

/-- `searchMarker` followed by `float()`: the parsed value of the first match;
`none` when there is no match or (conflated here; the run functions keep the
two cases apart) the matched group is malformed. -/
def markerValue (marker text : List Char) : Option Dec :=
  (searchMarker marker text).bind pyFloat

/-- A Python number as stored in the reference-range table: the `int`/`float`
distinction matters for string formatting (`125` prints without a decimal
point, `13.5` with one).  All numbers in the table are nonnegative. -/
inductive PyNum where
  | int (n : Nat)
  | float (d : Dec)
deriving DecidableEq

/-- A table bound as an exact decimal (Python compares `int` and `float`
numerically). -/
def PyNum.toDec : PyNum → Dec
  | .int n => ⟨n, 0⟩
  | .float d => d

/-- The rational value of a table bound. -/
def PyNum.toRat (p : PyNum) : Rat := p.toDec.toRat

/-- The character for a decimal digit value (`n` is taken mod 10). -/
def digitChar (n : Nat) : Char := Char.ofNat (48 + n % 10)

/-- Decimal digits of a natural number, most significant first
(fuel-recursive; fuel `n + 1` always suffices). -/
def natDigitsAux : Nat → Nat → List Char
  | 0, _ => []
  | fuel + 1, n =>
    if n < 10 then [digitChar n] else natDigitsAux fuel (n / 10) ++ [digitChar (n % 10)]

/-- Decimal digits of a natural number. -/
def natDigits (n : Nat) : List Char := natDigitsAux (n + 1) n

/-- Exactly `k` decimal digits of `r`, left-padded with zeros. -/
def padDigits (k r : Nat) : List Char :=
  List.replicate (k - (natDigits r).length) '0' ++ natDigits r

/-- Drop trailing `'0'` characters. -/
def stripTrailingZeros (l : List Char) : List Char :=
  (l.reverse.dropWhile (· = '0')).reverse

/-- `repr()` of the Python float holding the exact decimal `d`
(e.g. `⟨1500, 1⟩`, i.e. `150.0`, prints as `"150.0"`; `⟨135, 1⟩` as
`"13.5"`): the integer part, a dot, then the fractional digits with
trailing zeros removed (`"0"` if none remain). -/
def Dec.repr (d : Dec) : List Char :=
  let fr := stripTrailingZeros (padDigits d.scale (d.mant % 10 ^ d.scale))
  natDigits (d.mant / 10 ^ d.scale) ++ '.' :: (if fr.isEmpty then ['0'] else fr)

/-- `str()` of a table bound as interpolated by the f-strings in
`tools.py`. -/
def PyNum.pyStr : PyNum → List Char
  | .int n => natDigits n
  | .float d => d.repr

/-- The `reference_ranges` dict of `NutritionAnalysisTool._run`, in Python
insertion (= iteration) order:
`{"Hemoglobin": (13.5, 17.5), "Cholesterol": (125, 200)}`. -/
def reference_ranges : List (List Char × PyNum × PyNum) :=
  [(lc "Hemoglobin", PyNum.float ⟨135, 1⟩, PyNum.float ⟨175, 1⟩),
   (lc "Cholesterol", PyNum.int 125, PyNum.int 200)]

/-- Classification of a value against a reference range. -/
inductive Classification where
  | below
  | within
  | above
deriving DecidableEq

/-- The `if value < low / elif value > high / else` chain of
`NutritionAnalysisTool._run`. -/
def classify (value low high : Dec) : Classification :=
  if value.blt low then .below else if high.blt value then .above else .within

/-- The first loop of `NutritionAnalysisTool._run`: for each table entry in
order, `re.search` the text; on a match, apply `float()` to the group — a
malformed group raises `ValueError`, modelled as `Except.error ()` — and
record the reading; markers without a match are skipped (no error). -/
def findingsLoop : List (List Char × PyNum × PyNum) → List Char →
    Except Unit (List (List Char × Dec))
  | [], _ => .ok []
  | (marker, _, _) :: rest, text =>
    match searchMarker marker text with
    | none => findingsLoop rest text
    | some g =>
      match pyFloat g with
      | none => .error ()
      | some v => (findingsLoop rest text).map (fun fs => (marker, v) :: fs)

/-- The `findings` dict (as an insertion-ordered association list). -/
def findings (text : List Char) : Except Unit (List (List Char × Dec)) :=
  findingsLoop reference_ranges text

/-- `reference_ranges[marker]`. -/
def lookupRange (marker : List Char) : Option (PyNum × PyNum) :=
  (reference_ranges.find? (fun e => e.1 == marker)).map (fun e => e.2)

/-- The advice line emitted for one finding by the second loop of
`NutritionAnalysisTool._run` (the f-strings at lines 72-83 of `tools.py`). -/
def adviceLine (marker : List Char) (value : Dec) (low high : PyNum) : List Char :=
  match classify value low.toDec high.toDec with
  | .below =>
    lc "Your " ++ marker ++ lc " (" ++ value.repr ++ lc ") is below the normal range (" ++
      low.pyStr ++ '-' :: high.pyStr ++ lc ").\n" ++
      lc "Consider foods rich in iron and B12, such as lean red meat, spinach, and fortified cereals."
  | .above =>
    lc "Your " ++ marker ++ lc " (" ++ value.repr ++ lc ") is above the normal range (" ++
      low.pyStr ++ '-' :: high.pyStr ++ lc ").\n" ++
      lc "Limit saturated fats and processed foods; focus on fiber-rich fruits, vegetables, and whole grains."
  | .within =>
    lc "Your " ++ marker ++ lc " (" ++ value.repr ++ lc ") is within the normal range."

/-- The `advice_lines` list.  The bound lookup `reference_ranges[marker]`
cannot fail (every findings key is a table key); the `none` branch is
unreachable. -/
def adviceLines (fs : List (List Char × Dec)) : List (List Char) :=
  fs.map (fun e =>
    match lookupRange e.1 with
    | some (low, high) => adviceLine e.1 e.2 low high
    | none => [])

/-- The fixed fallback string of `NutritionAnalysisTool._run`. -/
def nutritionFallback : List Char := lc "No recognizable markers found for nutrition analysis."

/-- `NutritionAnalysisTool._run`.  `Except.error ()` models an uncaught
`ValueError` raised by `float()` on a malformed matched group. -/
def nutritionRun (text : List Char) : Except Unit (List Char) :=
  (findings text).map (fun fs =>
    let lines := adviceLines fs
    if lines.isEmpty then nutritionFallback else List.intercalate (lc "\n\n") lines)

/-- The cardio plan line of `ExercisePlanningTool._run`. -/
def cardioLine : List Char :=
  lc "High cholesterol detected: incorporate 30 minutes of moderate cardio (e.g., brisk walking) 5 days/week."

/-- The low-intensity plan line of `ExercisePlanningTool._run`. -/
def lowIntensityLine : List Char :=
  lc "Low hemoglobin detected: start with light-intensity exercises like yoga or pilates 3 days/week, gradually increasing intensity."

/-- The fallback plan line of `ExercisePlanningTool._run`. -/
def exerciseFallback : List Char :=
  lc "No specific exercise adjustments needed based on provided metrics. Continue a balanced mix of cardio and strength training."

/-- One `re.search`-then-threshold check of `ExercisePlanningTool._run`:
`[]` when the marker is absent or the condition fails, `[line]` when it
holds, `Except.error ()` when `float()` raises on a malformed group (the
short-circuit `match and float(...) > bound` only calls `float` on a
match). -/
def checkMarker (marker : List Char) (cond : Dec → Bool) (line text : List Char) :
    Except Unit (List (List Char)) :=
  match searchMarker marker text with
  | none => .ok []
  | some g =>
    match pyFloat g with
    | none => .error ()
    | some v => .ok (if cond v then [line] else [])

/-- The `plan` list built by `ExercisePlanningTool._run`: cholesterol check
first, then hemoglobin (an uncaught `ValueError` in either check aborts the
call), then the fallback if nothing triggered. -/
def exercisePlan (text : List Char) : Except Unit (List (List Char)) :=
  match checkMarker (lc "Cholesterol") (fun v => Dec.blt ⟨200, 0⟩ v) cardioLine text with
  | .error e => .error e
  | .ok p1 =>
    match checkMarker (lc "Hemoglobin") (fun v => Dec.blt v ⟨135, 1⟩) lowIntensityLine text with
    | .error e => .error e
    | .ok p2 =>
      .ok (if (p1 ++ p2).isEmpty then [exerciseFallback] else p1 ++ p2)

/-- `ExercisePlanningTool._run`: the plan joined with blank lines. -/
def exerciseRun (text : List Char) : Except Unit (List Char) :=
  (exercisePlan text).map (List.intercalate (lc "\n\n"))

/-- The Bool trigger "a Cholesterol value strictly above 200 was matched". -/
def cholTriggers (text : List Char) : Bool :=
  match markerValue (lc "Cholesterol") text with
  | some v => Dec.blt ⟨200, 0⟩ v
  | none => false

/-- The Bool trigger "a Hemoglobin value strictly below 13.5 was matched". -/
def hemoTriggers (text : List Char) : Bool :=
  match markerValue (lc "Hemoglobin") text with
  | some v => Dec.blt v ⟨135, 1⟩
  | none => false

/-- Specification helper: the association-list entry contributed by one
marker, `[(name, v)]` on a parsed value and `[]` on no match. -/
def optEntry (name : List Char) (o : Option Dec) : List (List Char × Dec) :=
  match o with
  | some v => [(name, v)]
  | none => []

/-- Specification helper: the exercise plan as a function of the two trigger
Bools — cardio line first, low-intensity line second, fallback when neither
triggers. -/
def planOf (c h : Bool) : List (List Char) :=
  let base := (if c then [cardioLine] else []) ++ (if h then [lowIntensityLine] else [])
  if base.isEmpty then [exerciseFallback] else base

instance {ε α : Type} [DecidableEq ε] [DecidableEq α] : DecidableEq (Except ε α) := fun a b =>
  match a, b with
  | .ok a, .ok b => decidable_of_iff (a = b) (by simp)
  | .error a, .error b => decidable_of_iff (a = b) (by simp)
  | .ok _, .error _ => isFalse (by simp)
  | .error _, .ok _ => isFalse (by simp)

/-- Outcome of `ReadBloodReportTool._run`: `FileNotFoundError` after the retry
loop, `ValueError` for a non-PDF extension, the extracted text, or the
wrapping `ValueError` around a loader failure.  Each error carries its
message. -/
inductive ReadOutcome where
  | notFound (msg : List Char)
  | invalidFormat (msg : List Char)
  | extractionError (msg : List Char)
  | ok (text : List Char)
deriving DecidableEq

/-- One execution of `ReadBloodReportTool._run`: its outcome together with how
many `os.path.isfile` calls it made and how many `time.sleep(1)` calls
(elapsed delay in time units) it performed. -/
structure ReadTrace where
  outcome : ReadOutcome
  checks : Nat
  sleeps : Nat
deriving DecidableEq

/-- Modelled fragment of `os.path.abspath` (POSIX): an absolute path is kept,
a relative one is prefixed with the working directory.  (Segment
normalization such as collapsing `..` is not modelled; no claim depends
on it.) -/
def absPath (cwd path : List Char) : List Char :=
  if path.head? = some '/' then path else cwd ++ '/' :: path

/-- The `for attempt in range(3)` existence-retry loop of
`ReadBloodReportTool._run`, with `n` attempts remaining and `k` checks already
made: each attempt calls `os.path.isfile` on the resolved path — `isfile k ap`
says what the k-th call returns — and either breaks out (`true`) or sleeps one
time unit and retries.  Returns (broke out, isfile calls, sleeps). -/
def retryLoop (isfile : Nat → List Char → Bool) (ap : List Char) : Nat → Nat → Bool × Nat × Nat
  | _, 0 => (false, 0, 0)
  | k, n + 1 =>
    if isfile k ap then (true, 1, 0)
    else
      let r := retryLoop isfile ap (k + 1) n
      (r.1, r.2.1 + 1, r.2.2 + 1)

/-- `file_path.lower().endswith(".pdf")`. -/
def lowerEndsWithPdf (p : List Char) : Bool := (lc ".pdf").isSuffixOf (p.map pyLower)

/-- `ReadBloodReportTool._run`: resolve the path, run the existence-retry loop
(raising `FileNotFoundError` when the loop never breaks), then check the
extension (raising `ValueError` on a non-PDF), then load the pages — the
loader is an oracle `loadPdf` giving the page texts or a failure message —
and join the page texts with single newlines, wrapping loader failures in
`ValueError`. -/
def readRun (isfile : Nat → List Char → Bool)
    (loadPdf : List Char → Except (List Char) (List (List Char)))
    (cwd path : List Char) : ReadTrace :=
  let ap := absPath cwd path
  let r := retryLoop isfile ap 0 3
  if r.1 then
    if lowerEndsWithPdf ap then
      match loadPdf ap with
      | .ok pages => ⟨.ok (List.intercalate ['\n'] pages), r.2.1, r.2.2⟩
      | .error e => ⟨.extractionError (lc "Error reading PDF file: " ++ e), r.2.1, r.2.2⟩
    else ⟨.invalidFormat (lc "File must be a PDF"), r.2.1, r.2.2⟩
  else ⟨.notFound (lc "File not found after 3 attempts: " ++ ap), r.2.1, r.2.2⟩

/-! ### Value-level correspondence between `Dec` and its rational value -/

lemma Dec.blt_iff (a b : Dec) : a.blt b = true ↔ a.toRat < b.toRat := by
  unfold Dec.blt Dec.toRat
  rw [decide_eq_true_eq, div_lt_div_iff₀ (by positivity) (by positivity)]
  constructor
  · intro h; exact_mod_cast h
  · intro h; exact_mod_cast h

lemma classify_eq_below_iff (v lo hi : Dec) :
    classify v lo hi = .below ↔ v.toRat < lo.toRat := by
  unfold classify
  rw [← Dec.blt_iff]
  cases hb : v.blt lo <;> cases hh : hi.blt v <;> simp [hb, hh]

lemma classify_eq_above_iff (v lo hi : Dec) :
    classify v lo hi = .above ↔ ¬ v.toRat < lo.toRat ∧ hi.toRat < v.toRat := by
  unfold classify
  rw [← Dec.blt_iff (a := v) (b := lo), ← Dec.blt_iff (a := hi) (b := v)]
  cases hb : v.blt lo <;> cases hh : hi.blt v <;> simp [hb, hh]

lemma classify_eq_within_iff (v lo hi : Dec) :
    classify v lo hi = .within ↔ ¬ v.toRat < lo.toRat ∧ ¬ hi.toRat < v.toRat := by
  unfold classify
  rw [← Dec.blt_iff (a := v) (b := lo), ← Dec.blt_iff (a := hi) (b := v)]
  cases hb : v.blt lo <;> cases hh : hi.blt v <;> simp [hb, hh]

/-! ### Character-class facts -/

lemma isSep_eq_false_of_isDigitDot {c : Char} (h : isDigitDot c = true) : isSep c = false := by
  simp only [isDigitDot, Bool.or_eq_true, decide_eq_true_eq] at h
  by_contra hs
  rw [Bool.not_eq_false] at hs
  simp only [isSep, isPySpace, Bool.or_eq_true, decide_eq_true_eq, or_assoc] at hs
  rcases hs with rfl | rfl | rfl | rfl | rfl | rfl | rfl <;> revert h <;> decide

/-! ### List scanning helpers -/

lemma head?_dropWhile_eq_false {α : Type} (p : α → Bool) (l : List α) :
    ∀ c ∈ (l.dropWhile p).head?, p c = false := by
  intro c hc
  have h := List.head?_dropWhile_not p l
  rw [Option.mem_def] at hc
  rw [hc] at h
  exact h

lemma dropWhile_append_eq {α : Type} {p : α → Bool} {l₁ l₂ : List α}
    (h₁ : ∀ c ∈ l₁, p c = true) (h₂ : ∀ c ∈ l₂.head?, p c = false) :
    (l₁ ++ l₂).dropWhile p = l₂ := by
  induction l₁ with
  | nil =>
    simp only [List.nil_append]
    cases l₂ with
    | nil => rfl
    | cons b bs => simp [List.dropWhile_cons, h₂ b (by simp)]
  | cons a as ih =>
    have ha : p a = true := h₁ a (by simp)
    simp only [List.cons_append, List.dropWhile_cons, ha, if_true]
    exact ih (fun c hc => h₁ c (List.mem_cons_of_mem _ hc))

lemma takeWhile_append_eq {α : Type} {p : α → Bool} {l₁ l₂ : List α}
    (h₁ : ∀ c ∈ l₁, p c = true) (h₂ : ∀ c ∈ l₂.head?, p c = false) :
    (l₁ ++ l₂).takeWhile p = l₁ := by
  induction l₁ with
  | nil =>
    simp only [List.nil_append]
    cases l₂ with
    | nil => rfl
    | cons b bs => simp [List.takeWhile_cons, h₂ b (by simp)]
  | cons a as ih =>
    have ha : p a = true := h₁ a (by simp)
    simp only [List.cons_append, List.takeWhile_cons, ha, if_true]
    simp [ih (fun c hc => h₁ c (List.mem_cons_of_mem _ hc))]

/-! ### Declarative characterization of the pattern matcher -/

lemma startsWithCI_iff (t m : List Char) :
    startsWithCI t m = true ↔
      ∃ pre rest, t = pre ++ rest ∧ pre.map pyLower = m.map pyLower := by
  induction m generalizing t with
  | nil =>
    cases t with
    | nil => exact iff_of_true rfl ⟨[], [], rfl, rfl⟩
    | cons c cs => exact iff_of_true rfl ⟨[], c :: cs, rfl, rfl⟩
  | cons p ps ih =>
    cases t with
    | nil =>
      constructor
      · intro h; cases h
      · rintro ⟨pre, rest, h, hmap⟩
        rcases pre with _ | ⟨a, pre⟩
        · cases hmap
        · cases h
    | cons c cs =>
      show (pyLower c == pyLower p && startsWithCI cs ps) = true ↔ _
      rw [Bool.and_eq_true, beq_iff_eq, ih]
      constructor
      · rintro ⟨hcp, pre, rest, rfl, hmap⟩
        exact ⟨c :: pre, rest, rfl, by simp [hcp, hmap]⟩
      · rintro ⟨pre, rest, h, hmap⟩
        rcases pre with _ | ⟨a, pre⟩
        · cases hmap
        · rw [List.cons_append] at h
          injection h with h1 h2
          subst h1
          subst h2
          simp only [List.map_cons, List.cons.injEq] at hmap
          exact ⟨hmap.1, pre, rest, rfl, hmap.2⟩

lemma matchNumAt_eq_some_iff {marker t g : List Char} :
    matchNumAt marker t = some g ↔
      ∃ name sep post, t = name ++ sep ++ g ++ post ∧
        name.map pyLower = marker.map pyLower ∧
        (∀ c ∈ sep, isSep c = true) ∧
        g ≠ [] ∧ (∀ c ∈ g, isDigitDot c = true) ∧
        (∀ c ∈ post.head?, isDigitDot c = false) := by
  unfold matchNumAt
  constructor
  · intro h
    by_cases hs : startsWithCI t marker = true
    · rw [hs] at h
      simp only [if_true] at h
      obtain ⟨pre, r, hteq, hmap⟩ := (startsWithCI_iff _ _).mp hs
      have hlen : pre.length = marker.length := by
        simpa using congrArg List.length hmap
      have hdrop : t.drop marker.length = r := by
        rw [hteq, ← hlen, List.drop_left]
      rw [hdrop] at h
      rcases he : ((r.dropWhile isSep).takeWhile isDigitDot).isEmpty with _ | _
      · rw [he] at h
        simp only [Bool.false_eq_true, if_false, Option.some.injEq] at h
        refine ⟨pre, r.takeWhile isSep, (r.dropWhile isSep).dropWhile isDigitDot,
          ?_, hmap, ?_, ?_, ?_, ?_⟩
        · have hr : r = r.takeWhile isSep ++
              (g ++ (r.dropWhile isSep).dropWhile isDigitDot) := by
            rw [← h, List.takeWhile_append_dropWhile, List.takeWhile_append_dropWhile]
          rw [hteq]
          conv_lhs => rw [hr]
          simp [List.append_assoc]
        · exact fun c hc => List.mem_takeWhile_imp hc
        · intro hgnil
          rw [hgnil] at h
          rw [h] at he
          cases he
        · rw [← h]
          exact fun c hc => List.mem_takeWhile_imp hc
        · exact head?_dropWhile_eq_false _ _
      · rw [he] at h
        cases h
    · rw [Bool.not_eq_true] at hs
      rw [hs] at h
      simp only [Bool.false_eq_true, if_false] at h
      cases h
  · rintro ⟨name, sep, post, rfl, hmap, hsepall, hgne, hdd, hpost⟩
    obtain ⟨gh, gt, rfl⟩ := List.exists_cons_of_ne_nil hgne
    have hlen : name.length = marker.length := by
      simpa using congrArg List.length hmap
    have hs : startsWithCI (name ++ sep ++ (gh :: gt) ++ post) marker = true := by
      rw [startsWithCI_iff]
      exact ⟨name, sep ++ (gh :: gt) ++ post, by simp, hmap⟩
    rw [hs]
    simp only [if_true]
    have hdrop : (name ++ sep ++ (gh :: gt) ++ post).drop marker.length =
        sep ++ ((gh :: gt) ++ post) := by
      rw [← hlen, List.append_assoc, List.append_assoc, List.drop_left]
    rw [hdrop]
    have hd : ∀ c ∈ ((gh :: gt) ++ post).head?, isSep c = false := by
      intro c hc
      simp only [List.cons_append, List.head?_cons, Option.mem_def, Option.some.injEq] at hc
      subst hc
      exact isSep_eq_false_of_isDigitDot (hdd gh (by simp))
    rw [dropWhile_append_eq hsepall hd, takeWhile_append_eq hdd hpost]
    simp

lemma searchMarker_eq_some_iff {marker t g : List Char} :
    searchMarker marker t = some g ↔
      ∃ i, matchNumAt marker (t.drop i) = some g ∧
        ∀ j < i, matchNumAt marker (t.drop j) = none := by
  induction t with
  | nil =>
    show matchNumAt marker [] = some g ↔ _
    constructor
    · intro h
      exact ⟨0, h, fun j hj => absurd hj (Nat.not_lt_zero j)⟩
    · rintro ⟨i, hi, hj⟩
      rwa [List.drop_nil] at hi
  | cons c cs ih =>
    rcases h0 : matchNumAt marker (c :: cs) with _ | g0
    · have hL : searchMarker marker (c :: cs) = searchMarker marker cs := by
        show (match matchNumAt marker (c :: cs) with
          | some g => some g
          | none => searchMarker marker cs) = _
        rw [h0]
      rw [hL, ih]
      constructor
      · rintro ⟨i, hi, hj⟩
        refine ⟨i + 1, by simpa using hi, ?_⟩
        intro j hjlt
        cases j with
        | zero => simpa using h0
        | succ j' => simpa using hj j' (by omega)
      · rintro ⟨i, hi, hj⟩
        cases i with
        | zero =>
          rw [List.drop_zero, h0] at hi
          cases hi
        | succ i' =>
          exact ⟨i', by simpa using hi, fun j hjlt => by
            simpa using hj (j + 1) (by omega)⟩
    · have hL : searchMarker marker (c :: cs) = some g0 := by
        show (match matchNumAt marker (c :: cs) with
          | some g => some g
          | none => searchMarker marker cs) = _
        rw [h0]
      rw [hL]
      constructor
      · intro h
        exact ⟨0, by rw [List.drop_zero, h0, h], fun j hj => absurd hj (Nat.not_lt_zero j)⟩
      · rintro ⟨i, hi, hj⟩
        cases i with
        | zero =>
          rw [List.drop_zero, h0] at hi
          exact hi
        | succ i' =>
          have := hj 0 (by omega)
          rw [List.drop_zero, h0] at this
          cases this

lemma searchMarker_eq_none_iff {marker t : List Char} :
    searchMarker marker t = none ↔ ∀ i, matchNumAt marker (t.drop i) = none := by
  induction t with
  | nil =>
    show matchNumAt marker [] = none ↔ _
    constructor
    · intro h i
      rwa [List.drop_nil]
    · intro h
      simpa using h 0
  | cons c cs ih =>
    rcases h0 : matchNumAt marker (c :: cs) with _ | g0
    · have hL : searchMarker marker (c :: cs) = searchMarker marker cs := by
        show (match matchNumAt marker (c :: cs) with
          | some g => some g
          | none => searchMarker marker cs) = _
        rw [h0]
      rw [hL, ih]
      constructor
      · intro h i
        cases i with
        | zero => simpa using h0
        | succ i' => simpa using h i'
      · intro h i
        simpa using h (i + 1)
    · have hL : searchMarker marker (c :: cs) = some g0 := by
        show (match matchNumAt marker (c :: cs) with
          | some g => some g
          | none => searchMarker marker cs) = _
        rw [h0]
      rw [hL]
      constructor
      · intro h; cases h
      · intro h
        have := h 0
        rw [List.drop_zero, h0] at this
        cases this

/-! ### Structure of the findings list and the exercise plan -/

lemma findings_ok_eq {text : List Char} {fs : List (List Char × Dec)}
    (h : findings text = .ok fs) :
    fs = optEntry (lc "Hemoglobin") (markerValue (lc "Hemoglobin") text) ++
         optEntry (lc "Cholesterol") (markerValue (lc "Cholesterol") text) := by
  unfold findings reference_ranges at h
  rcases hh : searchMarker (lc "Hemoglobin") text with _ | gh <;>
    simp only [findingsLoop, hh] at h
  · rcases hc : searchMarker (lc "Cholesterol") text with _ | gc <;>
      simp only [findingsLoop, hc] at h
    · simp only [Except.ok.injEq] at h
      simp [← h, optEntry, markerValue, hh, hc]
    · rcases hpc : pyFloat gc with _ | vc <;> simp only [hpc, Except.map] at h
      · cases h
      · simp only [findingsLoop, Except.ok.injEq] at h
        simp [← h, optEntry, markerValue, hh, hc, hpc]
  · rcases hph : pyFloat gh with _ | vh <;> simp only [hph] at h
    · cases h
    · rcases hc : searchMarker (lc "Cholesterol") text with _ | gc <;>
        simp only [findingsLoop, hc] at h
      · simp only [Except.map, Except.ok.injEq] at h
        simp [← h, optEntry, markerValue, hh, hc, hph]
      · rcases hpc : pyFloat gc with _ | vc <;> simp only [hpc, Except.map] at h
        · cases h
        · simp only [findingsLoop, Except.map, Except.ok.injEq] at h
          simp [← h, optEntry, markerValue, hh, hc, hph, hpc]

lemma mem_findings_iff {text : List Char} {fs : List (List Char × Dec)}
    (h : findings text = .ok fs) (m : List Char) (v : Dec) :
    (m, v) ∈ fs ↔
      ((m = lc "Hemoglobin" ∨ m = lc "Cholesterol") ∧ markerValue m text = some v) := by
  rw [findings_ok_eq h]
  rcases hh : markerValue (lc "Hemoglobin") text with _ | vh <;>
    rcases hc : markerValue (lc "Cholesterol") text with _ | vc <;>
      simp only [optEntry, List.mem_append, List.mem_cons, List.mem_singleton,
        List.not_mem_nil, Prod.mk.injEq, false_or, or_false] <;>
      constructor
  · rintro ⟨⟩
  · rintro ⟨rfl | rfl, hv⟩ <;> simp_all
  · rintro ⟨rfl, rfl⟩
    exact ⟨Or.inr rfl, hc⟩
  · rintro ⟨rfl | rfl, hv⟩ <;> simp_all
  · rintro ⟨rfl, rfl⟩
    exact ⟨Or.inl rfl, hh⟩
  · rintro ⟨rfl | rfl, hv⟩ <;> simp_all
  · rintro (⟨rfl, rfl⟩ | ⟨rfl, rfl⟩)
    · exact ⟨Or.inl rfl, hh⟩
    · exact ⟨Or.inr rfl, hc⟩
  · rintro ⟨rfl | rfl, hv⟩ <;> simp_all

lemma findings_ok_parse {text : List Char} {fs : List (List Char × Dec)}
    (h : findings text = .ok fs) :
    ∀ marker lo hi, (marker, lo, hi) ∈ reference_ranges →
      ∀ g, searchMarker marker text = some g → ∃ v, pyFloat g = some v := by
  intro marker lo hi hmem g hg
  rcases hp : pyFloat g with _ | v
  · exfalso
    unfold reference_ranges at hmem
    unfold findings reference_ranges at h
    simp only [List.mem_cons, List.not_mem_nil, or_false, Prod.mk.injEq] at hmem
    rcases hmem with ⟨rfl, -, -⟩ | ⟨rfl, -, -⟩
    · simp only [findingsLoop, hg, hp] at h
      cases h
    · rcases hh : searchMarker (lc "Hemoglobin") text with _ | gh <;>
        simp only [findingsLoop, hh] at h
      · simp only [hg, hp] at h
        cases h
      · rcases hph : pyFloat gh with _ | vh <;> simp only [hph] at h
        · cases h
        · simp only [findingsLoop, hg, hp, Except.map] at h
          cases h
  · exact ⟨v, rfl⟩

lemma exercisePlan_ok_eq {text : List Char} {plan : List (List Char)}
    (h : exercisePlan text = .ok plan) :
    plan = planOf (cholTriggers text) (hemoTriggers text) := by
  unfold exercisePlan checkMarker at h
  rcases hc : searchMarker (lc "Cholesterol") text with _ | gc <;>
    simp only [hc] at h
  · rcases hh : searchMarker (lc "Hemoglobin") text with _ | gh <;>
      simp only [hh] at h
    · simp only [Except.ok.injEq] at h
      simp [← h, planOf, cholTriggers, hemoTriggers, markerValue, hc, hh]
    · rcases hph : pyFloat gh with _ | vh <;> simp only [hph] at h
      · cases h
      · simp only [Except.ok.injEq] at h
        simp [← h, planOf, cholTriggers, hemoTriggers, markerValue, hc, hh, hph]
  · rcases hpc : pyFloat gc with _ | vc <;> simp only [hpc] at h
    · cases h
    · rcases hh : searchMarker (lc "Hemoglobin") text with _ | gh <;>
        simp only [hh] at h
      · simp only [Except.ok.injEq] at h
        simp [← h, planOf, cholTriggers, hemoTriggers, markerValue, hc, hh, hpc]
      · rcases hph : pyFloat gh with _ | vh <;> simp only [hph] at h
        · cases h
        · simp only [Except.ok.injEq] at h
          simp [← h, planOf, cholTriggers, hemoTriggers, markerValue, hc, hh, hpc, hph]

lemma findingsLoop_keys_sublist (table : List (List Char × PyNum × PyNum)) (text : List Char)
    {fs : List (List Char × Dec)} (h : findingsLoop table text = .ok fs) :
    List.Sublist (fs.map Prod.fst) (table.map (fun e => e.1)) := by
  induction table generalizing fs with
  | nil =>
    simp only [findingsLoop, Except.ok.injEq] at h
    simp [← h]
  | cons e rest ih =>
    obtain ⟨m, lo, hi⟩ := e
    rcases hs : searchMarker m text with _ | g <;> simp only [findingsLoop, hs] at h
    · exact (ih h).cons _
    · rcases hp : pyFloat g with _ | v <;> simp only [hp] at h
      · cases h
      · rcases hrec : findingsLoop rest text with _ | fs' <;>
          simp only [hrec, Except.map] at h
        · cases h
        · simp only [Except.ok.injEq] at h
          rw [← h]
          simpa using (ih hrec).cons₂ m

/-! ### Reference-table lookup -/

lemma lookupRange_inv {m : List Char} {lo hi : PyNum} (h : lookupRange m = some (lo, hi)) :
    (m = lc "Hemoglobin" ∧ lo = PyNum.float ⟨135, 1⟩ ∧ hi = PyNum.float ⟨175, 1⟩) ∨
    (m = lc "Cholesterol" ∧ lo = PyNum.int 125 ∧ hi = PyNum.int 200) := by
  by_cases h1 : m = lc "Hemoglobin"
  · subst h1
    have he : lookupRange (lc "Hemoglobin") =
        some (PyNum.float ⟨135, 1⟩, PyNum.float ⟨175, 1⟩) := by decide
    rw [he] at h
    simp only [Option.some.injEq, Prod.mk.injEq] at h
    exact Or.inl ⟨rfl, h.1.symm, h.2.symm⟩
  · by_cases h2 : m = lc "Cholesterol"
    · subst h2
      have he : lookupRange (lc "Cholesterol") = some (PyNum.int 125, PyNum.int 200) := by
        decide
      rw [he] at h
      simp only [Option.some.injEq, Prod.mk.injEq] at h
      exact Or.inr ⟨rfl, h.1.symm, h.2.symm⟩
    · exfalso
      have hb1 : (lc "Hemoglobin" == m) = false :=
        beq_eq_false_iff_ne.mpr (fun e => h1 e.symm)
      have hb2 : (lc "Cholesterol" == m) = false :=
        beq_eq_false_iff_ne.mpr (fun e => h2 e.symm)
      simp [lookupRange, reference_ranges, List.find?, hb1, hb2] at h

/-! ### Characters appearing in rendered numbers -/

lemma digitChar_isDigit (n : Nat) : (digitChar n).isDigit = true := by
  unfold digitChar
  have h : n % 10 < 10 := Nat.mod_lt _ (by omega)
  generalize n % 10 = k at h ⊢
  interval_cases k <;> decide

lemma isDigit_of_mem_natDigitsAux {fuel n : Nat} {c : Char} (h : c ∈ natDigitsAux fuel n) :
    c.isDigit = true := by
  induction fuel generalizing n with
  | zero => cases h
  | succ fuel ih =>
    unfold natDigitsAux at h
    by_cases hn : n < 10
    · rw [if_pos hn] at h
      simp only [List.mem_singleton] at h
      subst h
      exact digitChar_isDigit n
    · rw [if_neg hn] at h
      rcases List.mem_append.mp h with h' | h'
      · exact ih h'
      · simp only [List.mem_singleton] at h'
        subst h'
        exact digitChar_isDigit _

lemma isDigit_of_mem_natDigits {n : Nat} {c : Char} (h : c ∈ natDigits n) :
    c.isDigit = true :=
  isDigit_of_mem_natDigitsAux h

lemma mem_Dec_repr {d : Dec} {c : Char} (h : c ∈ d.repr) :
    c.isDigit = true ∨ c = '.' := by
  unfold Dec.repr at h
  rcases List.mem_append.mp h with h' | h'
  · exact Or.inl (isDigit_of_mem_natDigits h')
  · rcases List.mem_cons.mp h' with rfl | h''
    · exact Or.inr rfl
    · left
      rcases hfr : (stripTrailingZeros (padDigits d.scale (d.mant % 10 ^ d.scale))).isEmpty
        with _ | _
      · simp only [hfr, Bool.false_eq_true, if_false] at h''
        have hmem : c ∈ padDigits d.scale (d.mant % 10 ^ d.scale) := by
          unfold stripTrailingZeros at h''
          have h1 := List.mem_reverse.mp h''
          have h2 := (List.dropWhile_sublist (l := (padDigits d.scale
            (d.mant % 10 ^ d.scale)).reverse) (p := fun x => decide (x = '0'))).subset h1
          exact List.mem_reverse.mp h2
        rcases List.mem_append.mp hmem with hp | hp
        · have hc0 : c = '0' := List.eq_of_mem_replicate hp
          subst hc0
          decide
        · exact isDigit_of_mem_natDigits hp
      · simp only [hfr, if_true, List.mem_singleton] at h''
        subst h''
        decide

lemma dash_not_mem_Dec_repr (d : Dec) : '-' ∉ d.repr := by
  intro h
  rcases mem_Dec_repr h with h' | h' <;> revert h' <;> decide

/-! ### The existence-retry loop -/

lemma retryLoop_first {isfile : Nat → List Char → Bool} {ap : List Char} {k : Nat}
    (h : isfile k ap = true) (n : Nat) :
    retryLoop isfile ap k (n + 1) = (true, 1, 0) := by
  simp [retryLoop, h]

lemma retryLoop_never {isfile : Nat → List Char → Bool} {ap : List Char}
    (h : ∀ k, isfile k ap = false) :
    ∀ n k, retryLoop isfile ap k n = (false, n, n) := by
  intro n
  induction n with
  | zero => intro k; rfl
  | succ n ih =>
    intro k
    simp [retryLoop, h k, ih (k + 1)]

lemma retryLoop_three_false {isfile : Nat → List Char → Bool} {ap : List Char}
    (h : (retryLoop isfile ap 0 3).1 = false) :
    isfile 0 ap = false ∧ isfile 1 ap = false ∧ isfile 2 ap = false ∧
      retryLoop isfile ap 0 3 = (false, 3, 3) := by
  rcases h0 : isfile 0 ap <;> rcases h1 : isfile 1 ap <;> rcases h2 : isfile 2 ap <;>
    simp [retryLoop, h0, h1, h2] at h ⊢

/-! ## Claim theorems -/

/-- C1 (counterexample): the claim says a path with a non-matching extension
fails immediately with `InvalidFormatError` and performs no existence-check
retries and no delays regardless of whether the file exists.  On a
never-existing `report.txt`, `_run` instead performs all 3 existence checks
with 3 unit delays and fails with `FileNotFoundError`. -/
theorem read_wrong_extension_counterexample :
    readRun (fun _ _ => false) (fun _ => .error []) (lc "/work") (lc "report.txt") =
      ⟨.notFound (lc "File not found after 3 attempts: /work/report.txt"), 3, 3⟩ ∧
    lowerEndsWithPdf (absPath (lc "/work") (lc "report.txt")) = false := by
  decide

/-- C1 (amended): in `ReadBloodReportTool._run` the existence-retry loop runs
before the extension check.  For a path whose resolved, lowered name does not
end in ".pdf": if the file exists on the first check, the call fails with
`ValueError("File must be a PDF")` after exactly one existence check and no
retry delay; but if the file never exists, the call fails with
`FileNotFoundError` only after the full retry loop, despite the bad
extension. -/
theorem read_wrong_extension_after_existence
    (isfile : Nat → List Char → Bool)
    (load : List Char → Except (List Char) (List (List Char)))
    (cwd path : List Char)
    (hext : lowerEndsWithPdf (absPath cwd path) = false) :
    (isfile 0 (absPath cwd path) = true →
      readRun isfile load cwd path = ⟨.invalidFormat (lc "File must be a PDF"), 1, 0⟩) ∧
    ((∀ k, isfile k (absPath cwd path) = false) →
      readRun isfile load cwd path =
        ⟨.notFound (lc "File not found after 3 attempts: " ++ absPath cwd path), 3, 3⟩) := by
  constructor
  · intro h0
    have hr : retryLoop isfile (absPath cwd path) 0 3 = (true, 1, 0) := retryLoop_first h0 2
    simp [readRun, hr, hext]
  · intro hnever
    have hr : retryLoop isfile (absPath cwd path) 0 3 = (false, 3, 3) :=
      retryLoop_never hnever 3 0
    simp [readRun, hr]

/-- C1 (witness for the amended theorem): a wrong-extension path whose file
exists at once yields the format error with one check and no sleep. -/
theorem read_wrong_extension_after_existence_witness :
    readRun (fun _ _ => true) (fun _ => .error []) (lc "/work") (lc "report.txt") =
      ⟨.invalidFormat (lc "File must be a PDF"), 1, 0⟩ :=
  (read_wrong_extension_after_existence (fun _ _ => true) (fun _ => .error [])
    (lc "/work") (lc "report.txt") (by decide)).1 rfl

/-- C3 (confirmed): on a `.pdf` path that never exists, `_run` makes the full
bound of 3 existence checks on the resolved absolute path, sleeping one time
unit after each failed check (so with a one-unit delay between consecutive
attempts), and then fails with `FileNotFoundError` whose message carries the
attempt count 3 and the resolved absolute path.  Moreover a
`FileNotFoundError` outcome only ever arises after all 3 checks have failed
and 3 delays have elapsed — never before the full retry bound. -/
theorem read_never_exists_full_retry
    (isfile : Nat → List Char → Bool)
    (load : List Char → Except (List Char) (List (List Char)))
    (cwd path : List Char)
    (hpdf : lowerEndsWithPdf (absPath cwd path) = true)
    (hnever : ∀ k, isfile k (absPath cwd path) = false) :
    readRun isfile load cwd path =
      ⟨.notFound (lc "File not found after 3 attempts: " ++ absPath cwd path), 3, 3⟩ ∧
    (∀ (isfile' : Nat → List Char → Bool) (m : List Char),
      (readRun isfile' load cwd path).outcome = .notFound m →
      (∀ k < 3, isfile' k (absPath cwd path) = false) ∧
      (readRun isfile' load cwd path).checks = 3 ∧
      (readRun isfile' load cwd path).sleeps = 3) := by
  constructor
  · have hr : retryLoop isfile (absPath cwd path) 0 3 = (false, 3, 3) :=
      retryLoop_never hnever 3 0
    simp [readRun, hr]
  · intro isfile' m hout
    by_cases hf : (retryLoop isfile' (absPath cwd path) 0 3).1 = true
    · exfalso
      rcases hload : load (absPath cwd path) with e | pages <;>
        simp [readRun, hf, hpdf, hload] at hout
    · rw [Bool.not_eq_true] at hf
      obtain ⟨h0, h1, h2, hr⟩ := retryLoop_three_false hf
      refine ⟨?_, ?_, ?_⟩
      · intro k hk
        interval_cases k
        · exact h0
        · exact h1
        · exact h2
      · simp [readRun, hr]
      · simp [readRun, hr]

/-- C3 (witness): the retry bound is reached on a concrete never-existing
`.pdf` path. -/
theorem read_never_exists_full_retry_witness :
    readRun (fun _ _ => false) (fun _ => .error []) (lc "/work") (lc "report.pdf") =
      ⟨.notFound (lc "File not found after 3 attempts: " ++
        absPath (lc "/work") (lc "report.pdf")), 3, 3⟩ :=
  (read_never_exists_full_retry (fun _ _ => false) (fun _ => .error [])
    (lc "/work") (lc "report.pdf") (by decide) (fun _ => rfl)).1

/-- C2 (counterexample): the claim says a matched-but-malformed number (e.g.
"1.2.3") is treated as "no match" and the call still returns a normal result
string.  Instead `float("1.2.3")` raises an uncaught `ValueError` in both
tools, so both calls fail. -/
theorem malformed_number_counterexample :
    nutritionRun (lc "Hemoglobin: 1.2.3") = .error () ∧
    exerciseRun (lc "Hemoglobin: 1.2.3") = .error () := by
  decide

/-- C2 (amended): a matched-but-malformed number is a hard failure, not a
"no match": whenever the pattern for a table marker matches a group that
`float()` rejects, both `NutritionAnalysisTool._run` and
`ExercisePlanningTool._run` abort with the uncaught `ValueError` instead of
returning a result string. -/
theorem malformed_number_raises
    (text marker : List Char) (lo hi : PyNum) (g : List Char)
    (hmem : (marker, lo, hi) ∈ reference_ranges)
    (hs : searchMarker marker text = some g)
    (hp : pyFloat g = none) :
    nutritionRun text = .error () ∧ exerciseRun text = .error () := by
  unfold reference_ranges at hmem
  simp only [List.mem_cons, List.not_mem_nil, or_false, Prod.mk.injEq] at hmem
  rcases hmem with ⟨rfl, -, -⟩ | ⟨rfl, -, -⟩
  · constructor
    · unfold nutritionRun findings reference_ranges
      simp [findingsLoop, hs, hp, Except.map]
    · unfold exerciseRun exercisePlan checkMarker
      rcases hc : searchMarker (lc "Cholesterol") text with _ | gc
      · simp [hc, hs, hp, Except.map]
      · rcases hpc : pyFloat gc with _ | vc
        · simp [hc, hpc, Except.map]
        · simp [hc, hpc, hs, hp, Except.map]
  · constructor
    · unfold nutritionRun findings reference_ranges
      rcases hh : searchMarker (lc "Hemoglobin") text with _ | gh
      · simp [findingsLoop, hh, hs, hp, Except.map]
      · rcases hph : pyFloat gh with _ | vh
        · simp [findingsLoop, hh, hph, Except.map]
        · simp [findingsLoop, hh, hph, hs, hp, Except.map]
    · unfold exerciseRun exercisePlan checkMarker
      simp [hs, hp, Except.map]

/-- C2 (witness for the amended theorem): the malformed group "1.2.3" matched
after "Hemoglobin" aborts both tools. -/
theorem malformed_number_raises_witness :
    nutritionRun (lc "Hemoglobin: 1.2.3") = .error () ∧
    exerciseRun (lc "Hemoglobin: 1.2.3") = .error () :=
  malformed_number_raises (lc "Hemoglobin: 1.2.3") (lc "Hemoglobin")
    (PyNum.float ⟨135, 1⟩) (PyNum.float ⟨175, 1⟩) (lc "1.2.3")
    (by decide) (by decide) (by decide)

/-- C4 (confirmed): for every marker matched by the finder with value `v` and
table range `(low, high)`, the classification chain gives BELOW iff
`v < low`, ABOVE iff `v > high`, and WITHIN otherwise — in particular the
boundaries classify as WITHIN; concretely, "Cholesterol: 200" parses to 200
and classifies WITHIN against (125, 200), and "Cholesterol 210" parses to 210
and classifies ABOVE. -/
theorem finder_classification_rule :
    (∀ text fs m v lo hi, findings text = .ok fs → (m, v) ∈ fs →
      lookupRange m = some (lo, hi) →
      ((v.toRat < lo.toRat → classify v lo.toDec hi.toDec = .below) ∧
       (hi.toRat < v.toRat → classify v lo.toDec hi.toDec = .above) ∧
       (lo.toRat ≤ v.toRat → v.toRat ≤ hi.toRat → classify v lo.toDec hi.toDec = .within))) ∧
    markerValue (lc "Cholesterol") (lc "Cholesterol: 200") = some ⟨200, 0⟩ ∧
    classify ⟨200, 0⟩ (PyNum.int 125).toDec (PyNum.int 200).toDec = .within ∧
    markerValue (lc "Cholesterol") (lc "Cholesterol 210") = some ⟨210, 0⟩ ∧
    classify ⟨210, 0⟩ (PyNum.int 125).toDec (PyNum.int 200).toDec = .above := by
  refine ⟨?_, by decide, by decide, by decide, by decide⟩
  intro text fs m v lo hi hok hmem hlook
  have hlh : lo.toRat ≤ hi.toRat := by
    rcases lookupRange_inv hlook with ⟨-, rfl, rfl⟩ | ⟨-, rfl, rfl⟩ <;>
      norm_num [PyNum.toRat, PyNum.toDec, Dec.toRat]
  refine ⟨?_, ?_, ?_⟩
  · intro hlt
    rw [classify_eq_below_iff]
    exact hlt
  · intro hgt
    rw [classify_eq_above_iff]
    refine ⟨fun hlt => ?_, hgt⟩
    have h1 : lo.toDec.toRat ≤ hi.toDec.toRat := hlh
    have h2 : hi.toDec.toRat < v.toRat := hgt
    linarith
  · intro h1 h2
    rw [classify_eq_within_iff]
    exact ⟨not_lt.mpr h1, not_lt.mpr h2⟩

/-- C4 (witness): the rule applied to the finding parsed from
"Cholesterol: 100" (below the low bound 125). -/
theorem finder_classification_rule_witness :
    classify ⟨100, 0⟩ (PyNum.int 125).toDec (PyNum.int 200).toDec = .below :=
  ((finder_classification_rule.1 (lc "Cholesterol: 100")
      [(lc "Cholesterol", ⟨100, 0⟩)] (lc "Cholesterol") ⟨100, 0⟩
      (PyNum.int 125) (PyNum.int 200) (by decide) (by decide) (by decide)).1
    (by norm_num [PyNum.toRat, PyNum.toDec, Dec.toRat]))

/-- C5 (confirmed): whenever `ExercisePlanningTool._run` returns, its plan is
exactly: the cardio line iff a matched Cholesterol value exceeds 200, then
the low-intensity line iff a matched Hemoglobin value is below 13.5
(cholesterol line first), and the single fixed fallback line when neither
triggered; the returned string joins the plan lines with a blank-line
separator. -/
theorem exercise_compose_spec (text : List Char) (plan : List (List Char))
    (h : exercisePlan text = .ok plan) :
    plan = planOf (cholTriggers text) (hemoTriggers text) ∧
    (cardioLine ∈ plan ↔ cholTriggers text = true) ∧
    (lowIntensityLine ∈ plan ↔ hemoTriggers text = true) ∧
    (cholTriggers text = false → hemoTriggers text = false →
      plan = [exerciseFallback]) ∧
    exerciseRun text = .ok (List.intercalate (lc "\n\n") plan) := by
  have hp := exercisePlan_ok_eq h
  refine ⟨hp, ?_, ?_, ?_, ?_⟩
  · rw [hp]
    rcases hc : cholTriggers text <;> rcases hh : hemoTriggers text <;> decide
  · rw [hp]
    rcases hc : cholTriggers text <;> rcases hh : hemoTriggers text <;> decide
  · intro h1 h2
    rw [hp, h1, h2]
    decide
  · simp [exerciseRun, h, Except.map]

/-- C5 (witness): on "Cholesterol: 250, Hemoglobin: 10.0" both lines are
emitted, cardio line first. -/
theorem exercise_compose_spec_witness :
    cardioLine ∈ [cardioLine, lowIntensityLine] ∧
    lowIntensityLine ∈ [cardioLine, lowIntensityLine] :=
  ⟨((exercise_compose_spec (lc "Cholesterol: 250, Hemoglobin: 10.0")
      [cardioLine, lowIntensityLine] (by decide)).2.1).mpr (by decide),
   ((exercise_compose_spec (lc "Cholesterol: 250, Hemoglobin: 10.0")
      [cardioLine, lowIntensityLine] (by decide)).2.2.1).mpr (by decide)⟩

/-- C6 (confirmed): for each table entry, the finder searches the text for the
marker name case-insensitively (the matched segment equals the marker up to
ASCII lower-casing), followed through an optional run of colons/whitespace by
a nonempty run of digits and dots, takes the leftmost such match (every
earlier position has no match), and binds that marker to the parsed value of
the first match; a marker with no match is omitted from the findings without
an error, and if no table marker matches at all the call returns the fixed
fallback normally. -/
theorem finder_search_spec (text marker : List Char) (lo hi : PyNum)
    (hmem : (marker, lo, hi) ∈ reference_ranges) :
    (∀ g, searchMarker marker text = some g ↔
      ∃ i, matchNumAt marker (text.drop i) = some g ∧
        ∀ j < i, matchNumAt marker (text.drop j) = none) ∧
    (∀ t g, matchNumAt marker t = some g ↔
      ∃ name sep post, t = name ++ sep ++ g ++ post ∧
        name.map pyLower = marker.map pyLower ∧
        (∀ c ∈ sep, isSep c = true) ∧
        g ≠ [] ∧ (∀ c ∈ g, isDigitDot c = true) ∧
        (∀ c ∈ post.head?, isDigitDot c = false)) ∧
    (∀ fs v, findings text = .ok fs →
      ((marker, v) ∈ fs ↔ markerValue marker text = some v)) ∧
    (searchMarker marker text = none →
      ∀ fs, findings text = .ok fs → ∀ v, (marker, v) ∉ fs) ∧
    ((∀ m lo hi, (m, lo, hi) ∈ reference_ranges → searchMarker m text = none) →
      nutritionRun text = .ok nutritionFallback) := by
  have hm2 : marker = lc "Hemoglobin" ∨ marker = lc "Cholesterol" := by
    unfold reference_ranges at hmem
    simp only [List.mem_cons, List.not_mem_nil, or_false, Prod.mk.injEq] at hmem
    rcases hmem with ⟨rfl, -, -⟩ | ⟨rfl, -, -⟩
    · exact Or.inl rfl
    · exact Or.inr rfl
  refine ⟨fun g => searchMarker_eq_some_iff, fun t g => matchNumAt_eq_some_iff,
    ?_, ?_, ?_⟩
  · intro fs v hok
    rw [mem_findings_iff hok]
    constructor
    · exact fun h => h.2
    · exact fun h => ⟨hm2, h⟩
  · intro hnone fs hok v hmemv
    have := ((mem_findings_iff hok marker v).mp hmemv).2
    rw [markerValue, hnone] at this
    cases this
  · intro hall
    have hh : searchMarker (lc "Hemoglobin") text = none :=
      hall (lc "Hemoglobin") (PyNum.float ⟨135, 1⟩) (PyNum.float ⟨175, 1⟩) (by decide)
    have hc : searchMarker (lc "Cholesterol") text = none :=
      hall (lc "Cholesterol") (PyNum.int 125) (PyNum.int 200) (by decide)
    unfold nutritionRun findings reference_ranges
    simp [findingsLoop, hh, hc, adviceLines, Except.map]

/-- C6 (witness): the Cholesterol entry on "Cholesterol: 210": membership in
the findings coincides with the parsed first match. -/
theorem finder_search_spec_witness :
    (lc "Cholesterol", (⟨210, 0⟩ : Dec)) ∈ [(lc "Cholesterol", (⟨210, 0⟩ : Dec))] :=
  ((finder_search_spec (lc "Cholesterol: 210") (lc "Cholesterol")
      (PyNum.int 125) (PyNum.int 200) (by decide)).2.2.1
    [(lc "Cholesterol", ⟨210, 0⟩)] ⟨210, 0⟩ (by decide)).mpr (by decide)

/-- C7 (counterexample): the claim says every advice line — WITHIN included —
states the bound pair verbatim.  On "Cholesterol: 150" the emitted WITHIN
line contains no bound pair (not even the substring "125"). -/
theorem within_line_counterexample :
    nutritionRun (lc "Cholesterol: 150") =
      .ok (lc "Your Cholesterol (150.0) is within the normal range.") ∧
    ¬ (lc "(125-200)") <:+: (lc "Your Cholesterol (150.0) is within the normal range.") ∧
    ¬ (lc "125") <:+: (lc "Your Cholesterol (150.0) is within the normal range.") := by
  decide

/-- C7 (amended): BELOW and ABOVE advice lines state the marker name, the
rendered value, and the rendered bound pair verbatim; the WITHIN line states
the marker name and the rendered value but omits the bound pair. -/
theorem advice_line_content (text : List Char) (fs : List (List Char × Dec))
    (m : List Char) (v : Dec) (lo hi : PyNum)
    (hok : findings text = .ok fs) (hmem : (m, v) ∈ fs)
    (hlook : lookupRange m = some (lo, hi)) :
    (classify v lo.toDec hi.toDec ≠ .within →
      m <:+: adviceLine m v lo hi ∧
      v.repr <:+: adviceLine m v lo hi ∧
      (lc "(" ++ lo.pyStr ++ '-' :: hi.pyStr ++ lc ")") <:+: adviceLine m v lo hi) ∧
    (classify v lo.toDec hi.toDec = .within →
      adviceLine m v lo hi =
        lc "Your " ++ m ++ lc " (" ++ v.repr ++ lc ") is within the normal range." ∧
      ¬ (lc "(" ++ lo.pyStr ++ '-' :: hi.pyStr ++ lc ")") <:+: adviceLine m v lo hi) := by
  have hm2 : m = lc "Hemoglobin" ∨ m = lc "Cholesterol" := by
    rcases lookupRange_inv hlook with ⟨h1, -, -⟩ | ⟨h1, -, -⟩
    · exact Or.inl h1
    · exact Or.inr h1
  constructor
  · intro hne
    cases hcls : classify v lo.toDec hi.toDec
    · refine ⟨⟨lc "Your ", ?_, ?_⟩, ⟨lc "Your " ++ m ++ lc " (", ?_, ?_⟩, ?_⟩
      · exact lc " (" ++ v.repr ++ lc ") is below the normal range (" ++
          lo.pyStr ++ '-' :: hi.pyStr ++ lc ").\n" ++
          lc "Consider foods rich in iron and B12, such as lean red meat, spinach, and fortified cereals."
      · simp only [adviceLine, hcls]
        simp [List.append_assoc]
      · exact lc ") is below the normal range (" ++
          lo.pyStr ++ '-' :: hi.pyStr ++ lc ").\n" ++
          lc "Consider foods rich in iron and B12, such as lean red meat, spinach, and fortified cereals."
      · simp only [adviceLine, hcls]
        simp [List.append_assoc]
      · refine ⟨lc "Your " ++ m ++ lc " (" ++ v.repr ++ lc ") is below the normal range ",
          lc ".\n" ++
            lc "Consider foods rich in iron and B12, such as lean red meat, spinach, and fortified cereals.", ?_⟩
        simp only [adviceLine, hcls]
        have e1 : lc ") is below the normal range (" =
            lc ") is below the normal range " ++ lc "(" := by decide
        have e2 : lc ").\n" = lc ")" ++ lc ".\n" := by decide
        rw [e1, e2]
        simp [List.append_assoc]
    · exact absurd hcls hne
    · refine ⟨⟨lc "Your ", ?_, ?_⟩, ⟨lc "Your " ++ m ++ lc " (", ?_, ?_⟩, ?_⟩
      · exact lc " (" ++ v.repr ++ lc ") is above the normal range (" ++
          lo.pyStr ++ '-' :: hi.pyStr ++ lc ").\n" ++
          lc "Limit saturated fats and processed foods; focus on fiber-rich fruits, vegetables, and whole grains."
      · simp only [adviceLine, hcls]
        simp [List.append_assoc]
      · exact lc ") is above the normal range (" ++
          lo.pyStr ++ '-' :: hi.pyStr ++ lc ").\n" ++
          lc "Limit saturated fats and processed foods; focus on fiber-rich fruits, vegetables, and whole grains."
      · simp only [adviceLine, hcls]
        simp [List.append_assoc]
      · refine ⟨lc "Your " ++ m ++ lc " (" ++ v.repr ++ lc ") is above the normal range ",
          lc ".\n" ++
            lc "Limit saturated fats and processed foods; focus on fiber-rich fruits, vegetables, and whole grains.", ?_⟩
        simp only [adviceLine, hcls]
        have e1 : lc ") is above the normal range (" =
            lc ") is above the normal range " ++ lc "(" := by decide
        have e2 : lc ").\n" = lc ")" ++ lc ".\n" := by decide
        rw [e1, e2]
        simp [List.append_assoc]
  · intro hcls
    have heq : adviceLine m v lo hi =
        lc "Your " ++ m ++ lc " (" ++ v.repr ++ lc ") is within the normal range." := by
      simp only [adviceLine, hcls]
    refine ⟨heq, ?_⟩
    intro hinf
    have hdashmem : ('-' : Char) ∈ adviceLine m v lo hi := by
      refine hinf.subset ?_
      simp
    rw [heq] at hdashmem
    simp only [List.mem_append, or_assoc] at hdashmem
    rcases hdashmem with h1 | h2 | h3 | h4 | h5
    · revert h1; decide
    · rcases hm2 with hmh | hmh <;> rw [hmh] at h2 <;> revert h2 <;> decide
    · revert h3; decide
    · exact dash_not_mem_Dec_repr v h4
    · revert h5; decide

/-- C7 (witness for the amended theorem): the BELOW line for the Hemoglobin
reading 10.0 carries the rendered bound pair "(13.5-17.5)". -/
theorem advice_line_content_witness :
    (lc "(" ++ (PyNum.float ⟨135, 1⟩).pyStr ++ '-' :: (PyNum.float ⟨175, 1⟩).pyStr ++ lc ")") <:+:
      adviceLine (lc "Hemoglobin") ⟨100, 1⟩ (PyNum.float ⟨135, 1⟩) (PyNum.float ⟨175, 1⟩) :=
  ((advice_line_content (lc "Hemoglobin: 10.0") [(lc "Hemoglobin", ⟨100, 1⟩)]
      (lc "Hemoglobin") ⟨100, 1⟩ (PyNum.float ⟨135, 1⟩) (PyNum.float ⟨175, 1⟩)
      (by decide) (by decide) (by decide)).1 (by decide)).2.2

/-- C8 (confirmed): with no findings the nutrition call returns exactly the
fixed fallback string; otherwise it returns the advice lines joined by a
blank-line separator, one line per finding, and the findings are listed in
reference-table order (Hemoglobin before Cholesterol) — a sublist of the
table key order — independent of document order, as the concrete text with
Cholesterol appearing first shows. -/
theorem nutrition_compose_spec (text : List Char) (fs : List (List Char × Dec))
    (hok : findings text = .ok fs) :
    (fs = [] → nutritionRun text = .ok nutritionFallback) ∧
    (fs ≠ [] → nutritionRun text = .ok (List.intercalate (lc "\n\n") (adviceLines fs))) ∧
    List.Sublist (fs.map Prod.fst) [lc "Hemoglobin", lc "Cholesterol"] ∧
    findings (lc "Cholesterol: 210 Hemoglobin: 12.0") =
      .ok [(lc "Hemoglobin", ⟨120, 1⟩), (lc "Cholesterol", ⟨210, 0⟩)] := by
  refine ⟨?_, ?_, ?_, by decide⟩
  · intro h
    subst h
    simp [nutritionRun, hok, adviceLines, Except.map]
  · intro hne
    have hlines : (adviceLines fs).isEmpty = false := by
      rcases fs with _ | ⟨e, fs'⟩
      · exact absurd rfl hne
      · simp [adviceLines]
    simp [nutritionRun, hok, Except.map, hlines]
  · have hok' : findingsLoop reference_ranges text = Except.ok fs := hok
    have hs := findingsLoop_keys_sublist reference_ranges text hok'
    simpa [reference_ranges] using hs

/-- C8 (witness): on the text listing Cholesterol before Hemoglobin, the
output joins the two advice lines in table order. -/
theorem nutrition_compose_spec_witness :
    nutritionRun (lc "Cholesterol: 210 Hemoglobin: 12.0") =
      .ok (List.intercalate (lc "\n\n")
        (adviceLines [(lc "Hemoglobin", ⟨120, 1⟩), (lc "Cholesterol", ⟨210, 0⟩)])) :=
  (nutrition_compose_spec (lc "Cholesterol: 210 Hemoglobin: 12.0")
      [(lc "Hemoglobin", ⟨120, 1⟩), (lc "Cholesterol", ⟨210, 0⟩)]
      (by decide)).2.1 (by decide)

/-- C9 (confirmed): on any text where the exercise tool returns and the finder
returns, the exercise tool's independently re-derived triggers coincide with
the finder's classifications: the cardio line is in the plan iff the findings
contain a Cholesterol reading classified ABOVE its table range (value > 200),
and the low-intensity line is in the plan iff the findings contain a
Hemoglobin reading classified BELOW its table range (value < 13.5). -/
theorem exercise_refines_finder (text : List Char) (plan : List (List Char))
    (fs : List (List Char × Dec))
    (hplan : exercisePlan text = .ok plan)
    (hfind : findings text = .ok fs) :
    (cardioLine ∈ plan ↔
      ∃ v, (lc "Cholesterol", v) ∈ fs ∧
        classify v (PyNum.int 125).toDec (PyNum.int 200).toDec = .above) ∧
    (lowIntensityLine ∈ plan ↔
      ∃ v, (lc "Hemoglobin", v) ∈ fs ∧
        classify v (PyNum.float ⟨135, 1⟩).toDec (PyNum.float ⟨175, 1⟩).toDec = .below) := by
  have hp := exercisePlan_ok_eq hplan
  constructor
  · constructor
    · intro hmemc
      rw [hp] at hmemc
      have hc : cholTriggers text = true := by
        by_contra hcf
        rw [Bool.not_eq_true] at hcf
        rw [hcf] at hmemc
        rcases hh : hemoTriggers text <;> rw [hh] at hmemc <;> revert hmemc <;> decide
      obtain ⟨v, hv⟩ : ∃ v, markerValue (lc "Cholesterol") text = some v := by
        unfold cholTriggers at hc
        rcases hv : markerValue (lc "Cholesterol") text with _ | v
        · rw [hv] at hc; cases hc
        · exact ⟨v, rfl⟩
      have hgt : Dec.blt ⟨200, 0⟩ v = true := by
        unfold cholTriggers at hc
        rw [hv] at hc
        exact hc
      have h200 : (200 : Rat) < v.toRat := by
        have := (Dec.blt_iff _ _).mp hgt
        simpa [Dec.toRat] using this
      refine ⟨v, (mem_findings_iff hfind _ _).mpr ⟨Or.inr rfl, hv⟩, ?_⟩
      rw [classify_eq_above_iff]
      constructor
      · intro hlt
        have h125 : v.toRat < (125 : Rat) := by
          simpa [PyNum.toDec, Dec.toRat] using hlt
        linarith
      · show (PyNum.int 200).toDec.toRat < v.toRat
        simpa [PyNum.toDec, Dec.toRat] using h200
    · rintro ⟨v, hvmem, hcls⟩
      have hv : markerValue (lc "Cholesterol") text = some v :=
        ((mem_findings_iff hfind _ _).mp hvmem).2
      have habove := (classify_eq_above_iff _ _ _).mp hcls
      have hgt : (200 : Rat) < v.toRat := by
        simpa [PyNum.toDec, Dec.toRat] using habove.2
      have hc : cholTriggers text = true := by
        unfold cholTriggers
        rw [hv]
        show Dec.blt ⟨200, 0⟩ v = true
        rw [Dec.blt_iff]
        simpa [Dec.toRat] using hgt
      rw [hp, hc]
      rcases hh : hemoTriggers text <;> decide
  · constructor
    · intro hmemh
      rw [hp] at hmemh
      have hh : hemoTriggers text = true := by
        by_contra hhf
        rw [Bool.not_eq_true] at hhf
        rw [hhf] at hmemh
        rcases hc : cholTriggers text <;> rw [hc] at hmemh <;> revert hmemh <;> decide
      obtain ⟨v, hv⟩ : ∃ v, markerValue (lc "Hemoglobin") text = some v := by
        unfold hemoTriggers at hh
        rcases hv : markerValue (lc "Hemoglobin") text with _ | v
        · rw [hv] at hh; cases hh
        · exact ⟨v, rfl⟩
      have hlt : Dec.blt v ⟨135, 1⟩ = true := by
        unfold hemoTriggers at hh
        rw [hv] at hh
        exact hh
      refine ⟨v, (mem_findings_iff hfind _ _).mpr ⟨Or.inl rfl, hv⟩, ?_⟩
      rw [classify_eq_below_iff]
      exact (Dec.blt_iff _ _).mp hlt
    · rintro ⟨v, hvmem, hcls⟩
      have hv : markerValue (lc "Hemoglobin") text = some v :=
        ((mem_findings_iff hfind _ _).mp hvmem).2
      have hbelow := (classify_eq_below_iff _ _ _).mp hcls
      have hh : hemoTriggers text = true := by
        unfold hemoTriggers
        rw [hv]
        show Dec.blt v ⟨135, 1⟩ = true
        rw [Dec.blt_iff]
        exact hbelow
      rw [hp, hh]
      rcases hc : cholTriggers text <;> decide

/-- C9 (witness): on "Cholesterol: 250, Hemoglobin: 10.0" the cardio line in
the plan corresponds to the ABOVE-classified Cholesterol finding. -/
theorem exercise_refines_finder_witness :
    ∃ v, (lc "Cholesterol", v) ∈
        [(lc "Hemoglobin", (⟨100, 1⟩ : Dec)), (lc "Cholesterol", (⟨250, 0⟩ : Dec))] ∧
      classify v (PyNum.int 125).toDec (PyNum.int 200).toDec = .above :=
  (exercise_refines_finder (lc "Cholesterol: 250, Hemoglobin: 10.0")
      [cardioLine, lowIntensityLine]
      [(lc "Hemoglobin", ⟨100, 1⟩), (lc "Cholesterol", ⟨250, 0⟩)]
      (by decide) (by decide)).1.mp (by decide)

/-- C10 (confirmed): marker matching imposes no word boundary — any substring
occurrence of a marker name (up to ASCII case), even inside a longer token,
followed through optional colons/whitespace by a nonempty digit-dot run,
makes the search succeed; in particular the text "HDL Cholesterol: 60"
produces the Cholesterol reading 60. -/
theorem marker_match_no_word_boundary :
    (∀ marker lo hi pre name sep num post, (marker, lo, hi) ∈ reference_ranges →
      name.map pyLower = marker.map pyLower →
      (∀ c ∈ sep, isSep c = true) →
      num ≠ [] → (∀ c ∈ num, isDigitDot c = true) →
      searchMarker marker (pre ++ name ++ sep ++ num ++ post) ≠ none) ∧
    findings (lc "HDL Cholesterol: 60") = .ok [(lc "Cholesterol", ⟨60, 0⟩)] := by
  refine ⟨?_, by decide⟩
  intro marker lo hi pre name sep num post hmem hmap hsep hne hdd hnone
  rw [searchMarker_eq_none_iff] at hnone
  have h := hnone pre.length
  rw [show pre ++ name ++ sep ++ num ++ post = pre ++ (name ++ (sep ++ (num ++ post)))
    from by simp [List.append_assoc]] at h
  rw [List.drop_left] at h
  obtain ⟨nh, nt, rfl⟩ := List.exists_cons_of_ne_nil hne
  have hlen : name.length = marker.length := by
    simpa using congrArg List.length hmap
  have hs : startsWithCI (name ++ (sep ++ (nh :: nt ++ post))) marker = true :=
    (startsWithCI_iff _ _).mpr ⟨name, sep ++ (nh :: nt ++ post), rfl, hmap⟩
  unfold matchNumAt at h
  rw [hs] at h
  simp only [if_true] at h
  rw [← hlen, List.drop_left] at h
  rw [show (nh :: nt ++ post) = ((nh :: nt) ++ post) from by simp] at h
  rw [dropWhile_append_eq hsep ?hd2] at h
  case hd2 =>
    intro c hc
    simp only [List.cons_append, List.head?_cons, Option.mem_def, Option.some.injEq] at hc
    subst hc
    exact isSep_eq_false_of_isDigitDot (hdd nh (by simp))
  have hnh : isDigitDot nh = true := hdd nh (by simp)
  simp [List.takeWhile_cons, hnh] at h

/-- C10 (witness): the occurrence of "Cholesterol" inside "HDL Cholesterol"
matches despite not being preceded by a word boundary. -/
theorem marker_match_no_word_boundary_witness :
    searchMarker (lc "Cholesterol")
      (lc "HDL " ++ lc "Cholesterol" ++ lc ": " ++ lc "60" ++ lc "XYZ") ≠ none :=
  marker_match_no_word_boundary.1 (lc "Cholesterol") (PyNum.int 125) (PyNum.int 200)
    (lc "HDL ") (lc "Cholesterol") (lc ": ") (lc "60") (lc "XYZ")
    (by decide) (by decide) (by decide) (by decide) (by decide)

end BloodTest
